import Mathlib

/-!
Verification development for the autoregressive translation engine in
`src-tauri/src/translation/model.rs` of ClassNoteAI.

Modelling conventions (shallow embedding of the Rust source):
* `f32` logits are modelled as rationals `ℚ` (exact ordered-field arithmetic);
* `i64` token ids are modelled as `Int`; the `as usize` cast is the exact
  wrap-around `(· % 2 ^ 64).toNat`;
* `Vec<_>` is `List _`;
* the ONNX encoder / decoder sessions, the tokenizer `encode` / `decode`
  calls and the nucleus sampler `sample_top_p` (whose body uses the
  transcendental softmax and a thread-local RNG) are opaque function
  parameters; the sampler threads an explicit stream of random draws;
* panics inside the inference closure are caught by the blocking-task join
  and surface as `Err` strings at the `translate` boundary, so they are
  modelled as error results;
* error strings keep the Rust message heads without the formatted payloads.
-/

attribute [local semireducible] Rat.mul Rat.inv Rat.add Rat.sub

/-- Code points accepted by Rust `char::is_whitespace` (Unicode `White_Space`),
used by `trim` and `split_whitespace` in `preprocess_text_for_translation`. -/
def isRustWhitespace (c : Char) : Bool :=
  decide (c.toNat = 0x09 ∨ c.toNat = 0x0A ∨ c.toNat = 0x0B ∨ c.toNat = 0x0C ∨
    c.toNat = 0x0D ∨ c.toNat = 0x20 ∨ c.toNat = 0x85 ∨ c.toNat = 0xA0 ∨
    c.toNat = 0x1680 ∨ (0x2000 ≤ c.toNat ∧ c.toNat ≤ 0x200A) ∨ c.toNat = 0x2028 ∨
    c.toNat = 0x2029 ∨ c.toNat = 0x202F ∨ c.toNat = 0x205F ∨ c.toNat = 0x3000)

/-- Characters stripped by the `trim_matches` call of
`preprocess_text_for_translation` (step 5 of the Rust function). -/
def isPunctOrSpace (c : Char) : Bool :=
  decide (c = '.' ∨ c = ',' ∨ c = '!' ∨ c = '?' ∨ c = ';' ∨ c = ':' ∨ c = ' ')

/-- Rust `str::trim_matches` with a character predicate: strip matching
characters from both ends. -/
def trimMatchesBy (p : Char → Bool) (l : List Char) : List Char :=
  ((l.dropWhile p).reverse.dropWhile p).reverse

/-- Rust `str::trim` on a character list. -/
def rustTrim (l : List Char) : List Char :=
  trimMatchesBy isRustWhitespace l

/-- Rust `str::trim` on a `String` (the final cleanup steps of `translate`). -/
def rustTrimString (s : String) : String :=
  (rustTrim s.toList).asString

/-- Helper for `split_whitespace`: accumulate the current word (reversed) and
emit maximal non-whitespace runs in order. -/
def rustWordsAux (cur : List Char) : List Char → List (List Char)
  | [] => if cur = [] then [] else [cur.reverse]
  | c :: cs =>
    if isRustWhitespace c then
      if cur = [] then rustWordsAux [] cs else cur.reverse :: rustWordsAux [] cs
    else rustWordsAux (c :: cur) cs

/-- Rust `s.split_whitespace().collect::<Vec<_>>().join(" ")`: collapse every
whitespace run to a single space and drop leading/trailing whitespace. -/
def collapseWhitespace (l : List Char) : List Char :=
  List.intercalate [' '] (rustWordsAux [] l)

/-- Scan for the first closing character, failing on a newline first (the
regex `.` does not match `\n`); returns the suffix after the closer. -/
def splitAtCloser (closeC : Char) : List Char → Option (List Char)
  | [] => none
  | c :: cs =>
    if c = closeC then some cs
    else if c = '\n' then none
    else splitAtCloser closeC cs

/-- Fuel-indexed worker for `removeSpans`; the fuel is an upper bound on the
input length, consumed one unit per removed span or emitted character so the
recursion is structural and fully evaluable. -/
def removeSpansFuel (openC closeC : Char) : Nat → List Char → List Char
  | 0, l => l
  | _ + 1, [] => []
  | fuel + 1, c :: cs =>
    if c = openC then
      match splitAtCloser closeC cs with
      | some rest => removeSpansFuel openC closeC fuel rest
      | none => c :: removeSpansFuel openC closeC fuel cs
    else c :: removeSpansFuel openC closeC fuel cs

/-- Rust `Regex::new(r"\[.*?\]").replace_all(s, "")` (and the parenthesis
variant): leftmost-first removal of the shortest bracketed span, where the
span content may not contain a newline. -/
def removeSpans (openC closeC : Char) (l : List Char) : List Char :=
  removeSpansFuel openC closeC (l.length + 1) l

/-- Rust `Regex::new(r"<unk>").replace_all(s, " ")`: replace each literal
`<unk>` occurrence with a single space. -/
def replaceUnk : List Char → List Char
  | '<' :: 'u' :: 'n' :: 'k' :: '>' :: rest => ' ' :: replaceUnk rest
  | c :: rest => c :: replaceUnk rest
  | [] => []

/-- Embedding of `preprocess_text_for_translation` (model.rs lines 25-51). -/
def preprocess_text_for_translation (text : String) : String :=
  if text = "" then ""
  else
    let cleaned := rustTrim text.toList
    let cleaned := collapseWhitespace cleaned
    let cleaned := removeSpans '[' ']' cleaned
    let cleaned := removeSpans '(' ')' cleaned
    let cleaned := replaceUnk cleaned
    let cleaned := collapseWhitespace cleaned
    let cleaned := trimMatchesBy isPunctOrSpace cleaned
    (rustTrim cleaned).asString

/-- Embedding of `GenerationConfig` (model.rs lines 82-90). -/
structure GenerationConfig where
  max_length : Nat
  temperature : ℚ
  top_p : ℚ
  repetition_penalty : ℚ
  no_repeat_ngram_size : Nat
  short_sentence_threshold : Nat
  repetition_threshold : Nat
deriving DecidableEq

/-- Embedding of `GenerationConfig::default` (model.rs lines 92-104). -/
def GenerationConfig.default : GenerationConfig where
  max_length := 150
  temperature := 7 / 10
  top_p := 9 / 10
  repetition_penalty := 3 / 2
  no_repeat_ngram_size := 2
  short_sentence_threshold := 0
  repetition_threshold := 3

/-- Rust `i64 as usize` on a 64-bit target: wrap modulo `2 ^ 64`. -/
def i64_to_usize (t : Int) : Nat :=
  (t % (2 : Int) ^ 64).toNat

/-- Embedding of `TranslationModel::apply_repetition_penalty`
(model.rs lines 986-998): divide the logit of every already generated token
by the penalty, once per occurrence. -/
def apply_repetition_penalty (logits : List ℚ) (generated_tokens : List Int)
    (repetition_penalty : ℚ) : List ℚ :=
  generated_tokens.foldl
    (fun lg tokenId =>
      let idx := i64_to_usize tokenId
      if idx < lg.length then lg.set idx (lg.getD idx 0 / repetition_penalty) else lg)
    logits

/-- Embedding of `TranslationModel::has_repeated_ngram`
(model.rs lines 1003-1039): does appending `new_token` complete an n-gram
that already occurs in `generated_ids`? -/
def has_repeated_ngram (generated_ids : List Int) (ngram_size : Nat)
    (new_token : Int) : Bool :=
  if generated_ids.length < ngram_size then false
  else
    let check_ngram :=
      generated_ids.drop (generated_ids.length + 1 - ngram_size) ++ [new_token]
    (List.range (generated_ids.length - ngram_size + 1)).any fun i =>
      (List.range ngram_size).all fun j =>
        generated_ids.getD (i + j) 0 == check_ngram.getD j 0

/-- Rust `iter().enumerate().max_by(...)` over the logits: the maximum value
together with its index, where ties keep the later element (Rust `max_by`
returns the last maximal element). -/
def argmaxLast (l : List ℚ) : Option (Nat × ℚ) :=
  l.enum.foldl
    (fun acc p =>
      match acc with
      | none => some p
      | some q => if q.2 ≤ p.2 then some p else some q)
    none

/-- Insertion step of the stable descending sort used on `(index, logit)`
pairs; an element is placed before every element with a smaller-or-equal
logit coming later in the original order, matching Rust's stable `sort_by`
with the descending comparator. -/
def insertDescStable (x : Nat × ℚ) : List (Nat × ℚ) → List (Nat × ℚ)
  | [] => [x]
  | y :: ys => if y.2 ≤ x.2 then x :: y :: ys else y :: insertDescStable x ys

/-- Rust `logit_values.sort_by(|a, b| b.1.partial_cmp(&a.1)...)`: stable sort
of `(index, logit)` pairs by descending logit. -/
def sortDescStable (l : List (Nat × ℚ)) : List (Nat × ℚ) :=
  l.foldr insertDescStable []

/-- Embedding of the token-8 anomaly guard (model.rs lines 780-799): when the
argmax is index 8 and its margin over the runner-up exceeds 2.0, substitute
the runner-up. -/
def token8Adjust (last_logits : List ℚ) (max_idx : Nat) : Int :=
  let token_8_logit := last_logits.getD 8 0
  let logit_values := sortDescStable last_logits.enum
  match logit_values[1]? with
  | some sv => if 2 < token_8_logit - sv.2 then (sv.1 : Int) else (max_idx : Int)
  | none => (max_idx : Int)

/-- Embedding of the EOS-completion step (model.rs lines 522-525): append the
EOS id unless the sequence already ends with it. -/
def ensure_eos (ids : List Int) (eos_token_id : Int) : List Int :=
  if ids.getLast? = some eos_token_id then ids else ids ++ [eos_token_id]

/-- Embedding of the decoder seeding (model.rs lines 607-613): language
prefixed families (mBART/NLLB) start from `[EOS, target_lang]`, plain-seed
families (Marian) from `[decoder_start_token_id]`. -/
def seedGeneratedIds (needs_decoder_lang : Bool) (eos_token_id tgt_lang_token_id
    decoder_start_token_id : Int) : List Int :=
  if needs_decoder_lang then [eos_token_id, tgt_lang_token_id]
  else [decoder_start_token_id]

/-- State of the autoregressive decode loop (model.rs lines 607-877): the
generated ids, the consecutive-repeat counter, the last committed token, and
a ghost trace recording every decoder invocation as
`(decoder input_ids, encoder_hidden_states passed)`. -/
structure LoopState where
  generated : List Int
  consecutive_same : Nat
  last_token : Option Int
  trace : List (List Int × List ℚ)
deriving DecidableEq

/-- Outcome of one loop iteration: `halt` models `break`, `cont` models
falling through to the next iteration (including the `continue` paths), and
`err` models an early `return Err(..)`. -/
inductive StepOut where
  | halt : LoopState → StepOut
  | cont : LoopState → StepOut
  | err : LoopState → String → StepOut
deriving DecidableEq

/-- The state carried by a step outcome. -/
def StepOut.state : StepOut → LoopState
  | .halt s => s
  | .cont s => s
  | .err s _ => s

/-- Result of the whole decode loop: normal completion (`break` or the
`max_length` bound running out) or a propagated error. -/
inductive LoopRes where
  | done : LoopState → LoopRes
  | fail : LoopState → String → LoopRes
deriving DecidableEq

/-- The state carried by a loop result. -/
def LoopRes.state : LoopRes → LoopState
  | .done s => s
  | .fail s _ => s

/-- Type of the opaque `sample_top_p` collaborator: penalized logits,
temperature and top-p in, a chosen token id plus the remaining random stream
out (or the error the Rust function can return). -/
abbrev Sampler := List ℚ → ℚ → ℚ → List ℚ → Except String (Int × List ℚ)

/-- Fixed data of the decode loop: the decoder collaborator (taking
`encoder_attention_mask`, the full `input_ids` prefix and
`encoder_hidden_states`, returning the logits shape and flat buffer), the
tensors rebuilt each step, the model constants, and the generation config the
loop actually uses. -/
structure LoopEnv where
  dec : List Int → List Int → List ℚ → Except String (List Nat × List ℚ)
  encoder_attention_mask : List Int
  encoder_hidden_states : List ℚ
  input_seq_len : Nat
  hidden_size : Nat
  text_byte_len : Nat
  vocab_size : Nat
  eos_token_id : Int
  decoder_start_token_id : Int
  cfg : GenerationConfig

/-- Front half of one loop iteration (model.rs lines 629-777): validate the
cached encoder buffer, invoke the decoder, recover from an under-dimensioned
logits shape (lines 685-731, whose recomputed row is discarded and whose
panics surface as errors), slice the last logits row, apply the repetition
penalty and take the argmax.  Returns either an early exit or the state with
the call traced, the penalized last row, and the argmax index. -/
def decodePrefix (env : LoopEnv) (s : LoopState) :
    StepOut ⊕ (LoopState × List ℚ × Nat) :=
  if env.encoder_hidden_states.length ≠ 1 * env.input_seq_len * env.hidden_size then
    Sum.inl (.err s "encoder_hidden_states 數據長度不匹配")
  else
    let s1 : LoopState :=
      { s with trace := s.trace ++ [(s.generated, env.encoder_hidden_states)] }
    match env.dec env.encoder_attention_mask s.generated env.encoder_hidden_states with
    | .error e => Sum.inl (.err s1 ("Decoder 推理失敗: " ++ e))
    | .ok (logits_shape, logits_slice) =>
      if logits_shape.length < 3 ∧ env.vocab_size = 0 then
        Sum.inl (.err s1 "panic: 模除以零")
      else if logits_shape.length < 3 ∧
          ¬ logits_slice.length % (1 * env.vocab_size) = 0 then
        Sum.inl (.err s1 "Logits shape 異常")
      else if logits_shape.length < 3 ∧
          logits_slice.length / (1 * env.vocab_size) = 0 then
        Sum.inl (.err s1 "panic: usize 下溢")
      else
        let decoder_seq_len :=
          if 2 ≤ logits_shape.length then logits_shape.getD 1 0
          else logits_slice.length / (1 * env.vocab_size)
        if decoder_seq_len = 0 then Sum.inl (.err s1 "panic: usize 下溢")
        else if logits_slice.length < decoder_seq_len * env.vocab_size then
          Sum.inl (.err s1 "logits_slice 長度不足")
        else
          let last_logits0 :=
            (logits_slice.drop ((decoder_seq_len - 1) * env.vocab_size)).take
              env.vocab_size
          let last_logits :=
            apply_repetition_penalty last_logits0 s.generated
              env.cfg.repetition_penalty
          match argmaxLast last_logits with
          | none => Sum.inl (.err s1 "無法找到下一個 token ID")
          | some mv => Sum.inr (s1, last_logits, mv.1)

/-- Back half of one loop iteration (model.rs lines 834-877), applied to the
candidate that survived the n-gram guard: the consecutive-repeat guard, the
EOS check, the redundant start/pad-token skip, the vocabulary range skip, and
finally the append together with the hard `> 100` length cap. -/
def applyGuardsTail (env : LoopEnv) (s1 : LoopState) (next_token_id : Int) :
    StepOut :=
  if next_token_id = env.eos_token_id then .halt s1
  else if next_token_id = env.decoder_start_token_id then
    if s1.last_token = some next_token_id then .halt s1
    else .cont { s1 with last_token := some next_token_id }
  else if next_token_id < 0 ∨ (env.vocab_size : Int) ≤ next_token_id then .cont s1
  else
    let g := s1.generated ++ [next_token_id]
    let s2 := { s1 with last_token := some next_token_id, generated := g }
    if 100 < g.length then .halt s2 else .cont s2

/-- Consecutive-repeat guard (model.rs lines 834-843) in front of
`applyGuardsTail`: a candidate equal to `last_token` bumps the counter and
halts at `repetition_threshold`; a different candidate resets it to 0. -/
def applyGuards (env : LoopEnv) (s : LoopState) (next_token_id : Int) : StepOut :=
  if s.last_token = some next_token_id then
    if env.cfg.repetition_threshold ≤ s.consecutive_same + 1 then
      .halt { s with consecutive_same := s.consecutive_same + 1 }
    else applyGuardsTail env { s with consecutive_same := s.consecutive_same + 1 }
      next_token_id
  else applyGuardsTail env { s with consecutive_same := 0 } next_token_id

/-- No-repeat n-gram guard (model.rs lines 808-832): if the candidate would
complete a repeated n-gram, search the remaining candidates in stable
descending-logit order (skipping the sorted head) for the first legal one and
hand it to `applyGuards`; if none exists, break out of the loop. -/
def afterSelection (env : LoopEnv) (s : LoopState) (last_logits : List ℚ)
    (cand0 : Int) : StepOut :=
  if has_repeated_ngram s.generated env.cfg.no_repeat_ngram_size cand0 then
    match ((sortDescStable last_logits.enum).drop 1).find?
        (fun p => ! has_repeated_ngram s.generated env.cfg.no_repeat_ngram_size
          (p.1 : Int)) with
    | some p => applyGuards env s (p.1 : Int)
    | none => .halt s
  else applyGuards env s cand0

/-- One full iteration of the decode loop, threading the random stream used
only by the nucleus sampler: after `decodePrefix`, the candidate is the
token-8-adjusted argmax, or a sampler draw when the source text is shorter
than `short_sentence_threshold` (model.rs lines 780-806). -/
def decodeStep (env : LoopEnv) (sample : Sampler) (s : LoopState)
    (rng : List ℚ) : StepOut × List ℚ :=
  match decodePrefix env s with
  | Sum.inl out => (out, rng)
  | Sum.inr (s1, last_logits, max_idx) =>
    match (if max_idx = 8 then Except.ok (token8Adjust last_logits max_idx, rng)
           else if env.text_byte_len < env.cfg.short_sentence_threshold then
             sample last_logits env.cfg.temperature env.cfg.top_p rng
           else Except.ok ((max_idx : Int), rng)) with
    | .error e => (.err s1 e, rng)
    | .ok (cand0, rng2) => (afterSelection env s1 last_logits cand0, rng2)

/-- The autoregressive generation loop (model.rs lines 628-878), fuelled by
the `max_length` iteration bound of the `for` loop. -/
def decodeLoop (env : LoopEnv) (sample : Sampler) :
    Nat → LoopState → List ℚ → LoopRes × List ℚ
  | 0, s, rng => (.done s, rng)
  | fuel + 1, s, rng =>
    match decodeStep env sample s rng with
    | (.halt s1, rng1) => (.done s1, rng1)
    | (.err s1 e, rng1) => (.fail s1 e, rng1)
    | (.cont s1, rng1) => decodeLoop env sample fuel s1 rng1

/-- Output of the opaque encoder unit: the reported tensor shape (expected
`[1, L, hidden_size]`) and the flat hidden-state buffer. -/
structure EncoderOut where
  shape : List Nat
  data : List ℚ
deriving DecidableEq

/-- Embedding of the encoder-output validation (model.rs lines 575-600):
reject an empty buffer, read `hidden_size` from the third shape entry and
reject a buffer whose length differs from
`batch * input_seq_len * hidden_size`.  A shape with fewer than three entries
makes the source panic on indexing, surfacing as an error at the call
boundary; here `getD` yields `hidden_size = 0` and the length check then
rejects every nonempty buffer, an error in both models. -/
def validateEncoderOut (input_seq_len : Nat) (out : EncoderOut) :
    Except String (Nat × List ℚ) :=
  if out.data = [] then .error "Encoder hidden states 數據為空"
  else
    let hidden_size := out.shape.getD 2 0
    if out.data.length ≠ 1 * input_seq_len * hidden_size then
      .error "Encoder hidden states 數據長度不匹配"
    else .ok (hidden_size, out.data)

/-- Embedding of the output-id selection before detokenization
(model.rs lines 882-927): drop the seed tokens, stop at EOS, and filter
special/out-of-range ids, with the relaxed second pass of the Marian branch.
The `as u32` casts are omitted: every surviving id is in `[0, vocab_size)`
and the deployed vocabularies are below `2 ^ 32`. -/
def buildOutputIds (needs_decoder_lang : Bool) (eos_token_id
    decoder_start_token_id : Int) (vocab_size : Nat)
    (generated : List Int) : List Int :=
  if needs_decoder_lang then
    ((generated.drop 2).takeWhile fun t => !(t == eos_token_id)).filter
      fun t => decide (t ≠ 0 ∧ t ≠ 1)
  else
    let body := (generated.drop 1).takeWhile fun t =>
      !(t == eos_token_id || t == 0)
    let firstPass := body.filter fun t =>
      decide (t ≠ decoder_start_token_id ∧ t ≠ eos_token_id ∧ 0 ≤ t ∧
        t < (vocab_size : Int))
    if firstPass = [] ∧ 1 < generated.length then
      body.filter fun t =>
        decide (t ≠ decoder_start_token_id ∧ 0 ≤ t ∧ t < (vocab_size : Int))
    else firstPass

instance : DecidableEq (Except String String) := fun a b =>
  match a, b with
  | .error x, .error y =>
    if h : x = y then .isTrue (by rw [h]) else .isFalse (by simp [h])
  | .error _, .ok _ => .isFalse (by simp)
  | .ok _, .error _ => .isFalse (by simp)
  | .ok x, .ok y =>
    if h : x = y then .isTrue (by rw [h]) else .isFalse (by simp [h])

/-- Observable outcome of one `translate` call: the returned string or error,
the final decode-loop state (ghost, including the decoder-call trace), the id
sequence handed to the encoder, the validated encoder buffer and the filtered
ids handed to the tokenizer `decode` (each `none` when never reached). -/
structure TranslateOut where
  result : Except String String
  state : LoopState
  encInput : Option (List Int)
  encData : Option (List ℚ)
  outIds : Option (List Int)
deriving DecidableEq

/-- Detokenization tail of `translate` (model.rs lines 880-963): build the
output ids, reject an empty selection, decode, clean SentencePiece markers,
and reject an empty final string. -/
def finishTranslate (needs_decoder_lang : Bool) (eos_token_id
    decoder_start_token_id : Int) (vocab_size : Nat)
    (detok : List Int → Except String String) (st : LoopState)
    (encInput : List Int) (encData : List ℚ) : TranslateOut :=
  let output_ids := buildOutputIds needs_decoder_lang eos_token_id
    decoder_start_token_id vocab_size st.generated
  if output_ids = [] then
    ⟨.error "解碼前的 token IDs 為空", st, some encInput, some encData,
      some output_ids⟩
  else
    match detok output_ids with
    | .error e =>
      ⟨.error ("解碼失敗: " ++ e), st, some encInput, some encData,
        some output_ids⟩
    | .ok decoded =>
      let cleaned :=
        if decoded.toList.contains '▁' then
          rustTrimString (decoded.toList.map fun c =>
            if c = '▁' then ' ' else c).asString
        else rustTrimString decoded
      if cleaned = "" then
        ⟨.error "翻譯結果為空", st, some encInput, some encData, some output_ids⟩
      else ⟨.ok cleaned, st, some encInput, some encData, some output_ids⟩

/-- Embedding of `TranslationModel::translate` (model.rs lines 401-969) for a
loaded model.  `generation_config` is the stored config cloned at line 436;
the decode loop rebuilds `GenerationConfig::default()` at line 623, shadowing
it, which the embedding reproduces faithfully.  The tokenizer, encoder,
decoder, sampler and detokenizer are opaque collaborators; `rng` is the
random stream consumed only by the sampler. -/
def TranslationModel.translate (generation_config : GenerationConfig)
    (decoder_start_token_id eos_token_id : Int) (vocab_size : Nat)
    (needs_encoder_lang needs_decoder_lang : Bool)
    (src_lang_token_id tgt_lang_token_id : Int)
    (tok : String → Except String (List Int))
    (enc : List Int → List Int → Except String EncoderOut)
    (dec : List Int → List Int → List ℚ → Except String (List Nat × List ℚ))
    (sample : Sampler) (rng : List ℚ)
    (detok : List Int → Except String String)
    (text : String) : TranslateOut :=
  let emptyState : LoopState := ⟨[], 0, none, []⟩
  let preprocessed := preprocess_text_for_translation text
  if preprocessed = "" then
    ⟨.error "預處理後的文本為空", emptyState, none, none, none⟩
  else
    match tok preprocessed with
    | .error e => ⟨.error ("文本編碼失敗: " ++ e), emptyState, none, none, none⟩
    | .ok ids0 =>
      if ids0 = [] then
        ⟨.error "編碼後的 token IDs 為空", emptyState, none, none, none⟩
      else
        let ids1 :=
          if needs_encoder_lang ∧ ¬ ids0.head? = some src_lang_token_id then
            src_lang_token_id :: ids0
          else ids0
        let input_ids := ensure_eos ids1 eos_token_id
        let input_seq_len := input_ids.length
        let attention_mask : List Int := List.replicate input_seq_len 1
        match enc input_ids attention_mask with
        | .error e =>
          ⟨.error ("Encoder 推理失敗: " ++ e), emptyState, some input_ids,
            none, none⟩
        | .ok encOut =>
          match validateEncoderOut input_seq_len encOut with
          | .error e => ⟨.error e, emptyState, some input_ids, none, none⟩
          | .ok (hidden_size, encData) =>
            let seed := seedGeneratedIds needs_decoder_lang eos_token_id
              tgt_lang_token_id decoder_start_token_id
            let env : LoopEnv :=
              ⟨dec, attention_mask, encData, input_seq_len, hidden_size,
                text.utf8ByteSize, vocab_size, eos_token_id,
                decoder_start_token_id, GenerationConfig.default⟩
            match (decodeLoop env sample GenerationConfig.default.max_length
                ⟨seed, 0, none, []⟩ rng).1 with
            | .fail st e => ⟨.error e, st, some input_ids, some encData, none⟩
            | .done st =>
              finishTranslate needs_decoder_lang eos_token_id
                decoder_start_token_id vocab_size detok st input_ids encData

/-- The sequence `l` contains a repeated contiguous subsequence of length
`n`: two distinct in-bounds start positions carrying the same `n` elements.
This is the specification-level reading of "repeated n-gram". -/
def hasRepeatedNgramIn (l : List Int) (n : Nat) : Prop :=
  ∃ i j, i < j ∧ j + n ≤ l.length ∧ ∀ k, k < n → l.getD (i + k) 0 = l.getD (j + k) 0

/-- Mock tokenizer used by the concrete scenario runs: every text encodes to
the single id 5. -/
def mockTok : String → Except String (List Int) := fun _ => .ok [5]

/-- Mock encoder used by the concrete scenario runs: shape `[1, 2, 3]` with a
buffer of six ones (consistent with the two-token encoder input). -/
def mockEnc : List Int → List Int → Except String EncoderOut :=
  fun _ _ => .ok ⟨[1, 2, 3], List.replicate 6 1⟩

/-- Mock decoder over a four-token vocabulary whose raw last-row logits are
always `[0, 100, 5, 1]`: the argmax token 1 is emitted at every step. -/
def mockDec : List Int → List Int → List ℚ → Except String (List Nat × List ℚ) :=
  fun _ g _ => .ok ([1, g.length, 4],
    List.replicate ((g.length - 1) * 4) 0 ++ [0, 100, 5, 1])

/-- Mock decoder over a three-token vocabulary that always favours token 2,
used for runs that terminate at the first step. -/
def mockDecB : List Int → List Int → List ℚ → Except String (List Nat × List ℚ) :=
  fun _ g _ => .ok ([1, g.length, 3],
    List.replicate ((g.length - 1) * 3) 0 ++ [0, 0, 5])

/-- Mock sampler (never reached by the runs below). -/
def mockSample : Sampler := fun _ _ _ rng => .ok (0, rng)

/-- Mock detokenizer: comma-joined decimal ids, injective on id lists. -/
def mockDetok : List Int → Except String String :=
  fun ids => .ok (String.intercalate "," (ids.map toString))

/-- Concrete plain-seed run in which the decoder's raw argmax is token 1 at
every step: `decoder_start = 3`, `eos = 0`, vocabulary size 4. -/
def runRepeatEmit : TranslateOut :=
  TranslationModel.translate GenerationConfig.default 3 0 4 false false 0 0
    mockTok mockEnc mockDec mockSample [] mockDetok "hi"

/-- Concrete language-prefixed run (`eos = 2`, `target_lang = 250025`) that
halts at the first step by emitting EOS. -/
def runSeedLang : TranslateOut :=
  TranslationModel.translate GenerationConfig.default 65000 2 3 false true 0 250025
    mockTok mockEnc mockDecB mockSample [] mockDetok "hi"

/-- Concrete plain-seed run (`decoder_start = 65000`) that halts at the first
step by emitting EOS (`eos = 2`). -/
def runSeedPlain : TranslateOut :=
  TranslationModel.translate GenerationConfig.default 65000 2 3 false false 0 250025
    mockTok mockEnc mockDecB mockSample [] mockDetok "hi"

/-- Concrete loop environment matching `runRepeatEmit` (vocabulary size 4,
`eos = 0`, `decoder_start = 3`, default config), used to exercise the
consecutive-repeat guard at the step level. -/
def mockEnv : LoopEnv :=
  ⟨mockDec, [1, 1], List.replicate 6 1, 2, 3, 2, 4, 0, 3,
    GenerationConfig.default⟩

theorem getD_append_last (l : List Int) (t : Int) : (l ++ [t]).getD l.length 0 = t := by
  induction l with
  | nil => rfl
  | cons c cs ih => simpa using ih

theorem getD_drop (l : List Int) (j k : Nat) : (l.drop j).getD k 0 = l.getD (j + k) 0 := by
  induction l generalizing j with
  | nil => simp
  | cons c cs ih =>
    cases j with
    | zero => simp
    | succ j2 => simpa [List.getD_cons_succ, Nat.succ_add] using ih j2

theorem no_repeat_of_short (l : List Int) (n : Nat) (h : l.length ≤ n) :
    ¬ hasRepeatedNgramIn l n := by
  rintro ⟨i, j, hij, hjn, -⟩
  omega

theorem has_repeated_ngram_true_of (l : List Int) (n : Nat) (t : Int)
    (hn : 1 ≤ n) (hln : n ≤ l.length) (i : Nat) (hij : i < l.length + 1 - n)
    (hmatch : ∀ k, k < n →
      l.getD (i + k) 0 = (l ++ [t]).getD (l.length + 1 - n + k) 0) :
    has_repeated_ngram l n t = true := by
  unfold has_repeated_ngram
  rw [if_neg (by omega)]
  simp only [List.any_eq_true, List.mem_range]
  refine ⟨i, by omega, ?_⟩
  simp only [List.all_eq_true, List.mem_range]
  intro j hj
  rw [beq_iff_eq]
  have hdl : (l.drop (l.length + 1 - n)).length = n - 1 := by
    rw [List.length_drop]; omega
  by_cases hlast : j = n - 1
  · subst hlast
    rw [← hdl, getD_append_last, hdl]
    have h1 := hmatch (n - 1) (by omega)
    rw [h1]
    have hidx : l.length + 1 - n + (n - 1) = l.length := by omega
    rw [hidx, getD_append_last]
  · rw [List.getD_append _ _ _ _ (by omega : j < (l.drop (l.length + 1 - n)).length)]
    rw [getD_drop]
    have h1 := hmatch j hj
    rw [h1]
    rw [List.getD_append _ _ _ _ (by omega : l.length + 1 - n + j < l.length)]

theorem no_repeat_append (l : List Int) (n : Nat) (t : Int) (hn : 1 ≤ n)
    (hfalse : has_repeated_ngram l n t = false)
    (hl : ¬ hasRepeatedNgramIn l n) : ¬ hasRepeatedNgramIn (l ++ [t]) n := by
  rintro ⟨i, j, hij, hjn, hmatch⟩
  have hjn2 : j + n ≤ l.length + 1 := by simpa using hjn
  by_cases hcase : j + n ≤ l.length
  · exact hl ⟨i, j, hij, hcase, fun k hk => by
      have h1 := hmatch k hk
      rwa [List.getD_append _ _ _ _ (by omega), List.getD_append _ _ _ _ (by omega)]
        at h1⟩
  · have hj : j = l.length + 1 - n := by omega
    have htrue : has_repeated_ngram l n t = true := by
      apply has_repeated_ngram_true_of l n t hn (by omega) i (by omega)
      intro k hk
      have h1 := hmatch k hk
      rw [List.getD_append _ _ _ _ (by omega : i + k < l.length)] at h1
      rwa [hj] at h1
    rw [hfalse] at htrue
    exact Bool.false_ne_true htrue

theorem applyGuardsTail_trace (env : LoopEnv) (s : LoopState) (c : Int) :
    (applyGuardsTail env s c).state.trace = s.trace := by
  unfold applyGuardsTail
  dsimp only
  repeat' split
  all_goals rfl

theorem applyGuards_trace (env : LoopEnv) (s : LoopState) (c : Int) :
    (applyGuards env s c).state.trace = s.trace := by
  unfold applyGuards
  repeat' split
  · rfl
  all_goals exact applyGuardsTail_trace env _ c

theorem applyGuardsTail_generated (env : LoopEnv) (s : LoopState) (c : Int) :
    (applyGuardsTail env s c).state.generated = s.generated ∨
    (applyGuardsTail env s c).state.generated = s.generated ++ [c] := by
  unfold applyGuardsTail
  dsimp only
  repeat' split
  all_goals simp [StepOut.state]

theorem applyGuards_generated (env : LoopEnv) (s : LoopState) (c : Int) :
    (applyGuards env s c).state.generated = s.generated ∨
    (applyGuards env s c).state.generated = s.generated ++ [c] := by
  unfold applyGuards
  repeat' split
  · simp [StepOut.state]
  all_goals exact applyGuardsTail_generated env _ c

theorem applyGuardsTail_cont_le (env : LoopEnv) (s : LoopState) (c : Int)
    (s2 : LoopState) (h : applyGuardsTail env s c = .cont s2) :
    s2.generated = s.generated ∨ s2.generated.length ≤ 100 := by
  unfold applyGuardsTail at h
  dsimp only at h
  repeat' split at h
  all_goals cases h
  all_goals simp_all

theorem applyGuards_cont_le (env : LoopEnv) (s : LoopState) (c : Int)
    (s2 : LoopState) (h : applyGuards env s c = .cont s2) :
    s2.generated = s.generated ∨ s2.generated.length ≤ 100 := by
  unfold applyGuards at h
  repeat' split at h
  · exact absurd h (by simp)
  · exact applyGuardsTail_cont_le env
      { s with consecutive_same := s.consecutive_same + 1 } c s2 h
  · exact applyGuardsTail_cont_le env { s with consecutive_same := 0 } c s2 h

theorem afterSelection_trace (env : LoopEnv) (s : LoopState) (ll : List ℚ)
    (c0 : Int) : (afterSelection env s ll c0).state.trace = s.trace := by
  unfold afterSelection
  repeat' split
  · exact applyGuards_trace env s _
  · rfl
  · exact applyGuards_trace env s c0

theorem afterSelection_generated (env : LoopEnv) (s : LoopState) (ll : List ℚ)
    (c0 : Int) :
    (afterSelection env s ll c0).state.generated = s.generated ∨
    ∃ c, has_repeated_ngram s.generated env.cfg.no_repeat_ngram_size c = false ∧
      (afterSelection env s ll c0).state.generated = s.generated ++ [c] := by
  unfold afterSelection
  split
  case isTrue hrep =>
    split
    case h_1 p heq =>
      have hp := List.find?_some heq
      simp only [Bool.not_eq_eq_eq_not, Bool.not_true, Bool.not_eq_true] at hp
      rcases applyGuards_generated env s (p.1 : Int) with h | h
      · exact Or.inl h
      · exact Or.inr ⟨(p.1 : Int), by simpa using hp, h⟩
    case h_2 => exact Or.inl rfl
  case isFalse hrep =>
    rcases applyGuards_generated env s c0 with h | h
    · exact Or.inl h
    · exact Or.inr ⟨c0, by simpa using hrep, h⟩

theorem afterSelection_cont_le (env : LoopEnv) (s : LoopState) (ll : List ℚ)
    (c0 : Int) (s2 : LoopState) (h : afterSelection env s ll c0 = .cont s2) :
    s2.generated = s.generated ∨ s2.generated.length ≤ 100 := by
  unfold afterSelection at h
  repeat' split at h
  · exact applyGuards_cont_le env s _ s2 h
  · exact absurd h (by simp)
  · exact applyGuards_cont_le env s c0 s2 h

theorem decodePrefix_inl (env : LoopEnv) (s : LoopState) (out : StepOut)
    (h : decodePrefix env s = Sum.inl out) :
    out.state.generated = s.generated ∧
    out.state.consecutive_same = s.consecutive_same ∧
    out.state.last_token = s.last_token ∧
    (out.state.trace = s.trace ∨
      out.state.trace = s.trace ++ [(s.generated, env.encoder_hidden_states)]) := by
  unfold decodePrefix at h
  dsimp only at h
  repeat' split at h
  all_goals cases h
  all_goals simp [StepOut.state]

theorem decodePrefix_inr (env : LoopEnv) (s : LoopState) (s1 : LoopState)
    (ll : List ℚ) (mi : Nat) (h : decodePrefix env s = Sum.inr (s1, ll, mi)) :
    s1 = { s with trace := s.trace ++ [(s.generated, env.encoder_hidden_states)] } := by
  unfold decodePrefix at h
  dsimp only at h
  repeat' split at h
  all_goals cases h
  all_goals rfl

theorem decodePrefix_inl_isErr (env : LoopEnv) (s : LoopState) (out : StepOut)
    (h : decodePrefix env s = Sum.inl out) :
    ∃ s0 msg, out = .err s0 msg := by
  unfold decodePrefix at h
  dsimp only at h
  repeat' split at h
  all_goals cases h
  all_goals exact ⟨_, _, rfl⟩

theorem decodeStep_generated (env : LoopEnv) (f : Sampler) (s : LoopState)
    (rng : List ℚ) :
    (decodeStep env f s rng).1.state.generated = s.generated ∨
    ∃ c, has_repeated_ngram s.generated env.cfg.no_repeat_ngram_size c = false ∧
      (decodeStep env f s rng).1.state.generated = s.generated ++ [c] := by
  unfold decodeStep
  cases hd : decodePrefix env s with
  | inl out =>
    have h1 := decodePrefix_inl env s out hd
    exact Or.inl h1.1
  | inr p =>
    obtain ⟨s1, ll, mi⟩ := p
    have h1 := decodePrefix_inr env s s1 ll mi hd
    subst h1
    dsimp only
    split
    · exact Or.inl rfl
    · exact afterSelection_generated env _ ll _

theorem decodeStep_cont_le (env : LoopEnv) (f : Sampler) (s : LoopState)
    (rng : List ℚ) (s2 : LoopState) (rng2 : List ℚ)
    (h : decodeStep env f s rng = (.cont s2, rng2)) :
    s2.generated = s.generated ∨ s2.generated.length ≤ 100 := by
  unfold decodeStep at h
  revert h
  cases hd : decodePrefix env s with
  | inl out =>
    intro h
    obtain ⟨s0, msg, rfl⟩ := decodePrefix_inl_isErr env s out hd
    exact absurd h (by simp)
  | inr p =>
    obtain ⟨s1, ll, mi⟩ := p
    have h1 := decodePrefix_inr env s s1 ll mi hd
    subst h1
    dsimp only
    split
    · intro h; exact absurd h (by simp)
    · rename_i x cand0 rng3 heq
      intro h
      have h2 : afterSelection env
          { s with trace := s.trace ++ [(s.generated, env.encoder_hidden_states)] }
          ll cand0 = .cont s2 := congrArg Prod.fst h
      exact afterSelection_cont_le env
        { s with trace := s.trace ++ [(s.generated, env.encoder_hidden_states)] }
        ll cand0 s2 h2

theorem decodeStep_trace (env : LoopEnv) (f : Sampler) (s : LoopState)
    (rng : List ℚ) :
    (decodeStep env f s rng).1.state.trace = s.trace ∨
    (decodeStep env f s rng).1.state.trace
      = s.trace ++ [(s.generated, env.encoder_hidden_states)] := by
  unfold decodeStep
  cases hd : decodePrefix env s with
  | inl out =>
    have h1 := decodePrefix_inl env s out hd
    exact h1.2.2.2
  | inr p =>
    obtain ⟨s1, ll, mi⟩ := p
    have h1 := decodePrefix_inr env s s1 ll mi hd
    subst h1
    dsimp only
    split
    · exact Or.inr rfl
    · exact Or.inr (afterSelection_trace env _ ll _)

theorem decodeStep_cont_trace (env : LoopEnv) (f : Sampler) (s : LoopState)
    (rng : List ℚ) (s2 : LoopState) (rng2 : List ℚ)
    (h : decodeStep env f s rng = (.cont s2, rng2)) :
    s2.trace = s.trace ++ [(s.generated, env.encoder_hidden_states)] := by
  unfold decodeStep at h
  revert h
  cases hd : decodePrefix env s with
  | inl out =>
    intro h
    obtain ⟨s0, msg, rfl⟩ := decodePrefix_inl_isErr env s out hd
    exact absurd h (by simp)
  | inr p =>
    obtain ⟨s1, ll, mi⟩ := p
    have h1 := decodePrefix_inr env s s1 ll mi hd
    subst h1
    dsimp only
    split
    · intro h; exact absurd h (by simp)
    · rename_i x cand0 rng3 heq
      intro h
      have h2 : afterSelection env
          { s with trace := s.trace ++ [(s.generated, env.encoder_hidden_states)] }
          ll cand0 = .cont s2 := congrArg Prod.fst h
      have h3 := afterSelection_trace env
        { s with trace := s.trace ++ [(s.generated, env.encoder_hidden_states)] }
        ll cand0
      rw [h2] at h3
      exact h3

theorem decodeStep_sampler_irrel (env : LoopEnv) (f g : Sampler)
    (s : LoopState) (rng rng2 : List ℚ)
    (h : env.cfg.short_sentence_threshold = 0) :
    decodeStep env f s rng = ((decodeStep env g s rng2).1, rng) := by
  unfold decodeStep
  cases hd : decodePrefix env s with
  | inl out => rfl
  | inr p =>
    obtain ⟨s1, ll, mi⟩ := p
    dsimp only
    rw [h]
    simp only [Nat.not_lt_zero, if_false]
    by_cases h8 : mi = 8
    · rw [if_pos h8, if_pos h8]
    · rw [if_neg h8, if_neg h8]

theorem decodeLoop_no_repeat (env : LoopEnv) (f : Sampler)
    (hn : 1 ≤ env.cfg.no_repeat_ngram_size) :
    ∀ (fuel : Nat) (s : LoopState) (rng : List ℚ),
    ¬ hasRepeatedNgramIn s.generated env.cfg.no_repeat_ngram_size →
    ¬ hasRepeatedNgramIn ((decodeLoop env f fuel s rng).1.state).generated
      env.cfg.no_repeat_ngram_size := by
  intro fuel
  induction fuel with
  | zero => intro s rng h; exact h
  | succ n ih =>
    intro s rng h
    have hstep : ¬ hasRepeatedNgramIn ((decodeStep env f s rng).1.state).generated
        env.cfg.no_repeat_ngram_size := by
      rcases decodeStep_generated env f s rng with hg | ⟨c, hc, hg⟩
      · rw [hg]; exact h
      · rw [hg]; exact no_repeat_append _ _ _ hn hc h
    unfold decodeLoop
    rcases hds : decodeStep env f s rng with ⟨out, rng1⟩
    rw [hds] at hstep
    cases out with
    | halt s1 => exact hstep
    | err s1 e => exact hstep
    | cont s1 => exact ih s1 rng1 hstep

theorem decodeLoop_length (env : LoopEnv) (f : Sampler) :
    ∀ (fuel : Nat) (s : LoopState) (rng : List ℚ), s.generated.length ≤ 100 →
    ((decodeLoop env f fuel s rng).1.state).generated.length ≤ 101 := by
  intro fuel
  induction fuel with
  | zero => intro s rng h; exact Nat.le_succ_of_le h
  | succ n ih =>
    intro s rng h
    have hstep : ((decodeStep env f s rng).1.state).generated.length ≤ 101 := by
      rcases decodeStep_generated env f s rng with hg | ⟨c, _, hg⟩
      · rw [hg]; exact Nat.le_succ_of_le h
      · rw [hg]; simp only [List.length_append, List.length_singleton]; omega
    unfold decodeLoop
    rcases hds : decodeStep env f s rng with ⟨out, rng1⟩
    rw [hds] at hstep
    cases out with
    | halt s1 => exact hstep
    | err s1 e => exact hstep
    | cont s1 =>
      rcases decodeStep_cont_le env f s rng s1 rng1 hds with hg | hg
      · exact ih s1 rng1 (hg ▸ h)
      · exact ih s1 rng1 hg

theorem decodeLoop_trace_head_stable (env : LoopEnv) (f : Sampler) :
    ∀ (fuel : Nat) (s : LoopState) (rng : List ℚ) (x : List Int × List ℚ),
    s.trace.head? = some x →
    ((decodeLoop env f fuel s rng).1.state).trace.head? = some x := by
  intro fuel
  induction fuel with
  | zero => intro s rng x h; exact h
  | succ n ih =>
    intro s rng x h
    have hne : s.trace ≠ [] := by
      intro he; rw [he] at h; exact Option.noConfusion h
    have hstep : ((decodeStep env f s rng).1.state).trace.head? = some x := by
      rcases decodeStep_trace env f s rng with hg | hg
      · rw [hg]; exact h
      · rw [hg, List.head?_append_of_ne_nil _ hne]; exact h
    unfold decodeLoop
    rcases hds : decodeStep env f s rng with ⟨out, rng1⟩
    rw [hds] at hstep
    cases out with
    | halt s1 => exact hstep
    | err s1 e => exact hstep
    | cont s1 => exact ih s1 rng1 x hstep

theorem decodeLoop_trace_head (env : LoopEnv) (f : Sampler) :
    ∀ (fuel : Nat) (s : LoopState) (rng : List ℚ), s.trace = [] →
    ∀ x, ((decodeLoop env f fuel s rng).1.state).trace.head? = some x →
    x.1 = s.generated := by
  intro fuel
  induction fuel with
  | zero =>
    intro s rng h x hx
    simp only [decodeLoop, LoopRes.state] at hx
    rw [h] at hx
    exact Option.noConfusion hx
  | succ n ih =>
    intro s rng h x hx
    rcases hds : decodeStep env f s rng with ⟨out, rng1⟩
    have htr := decodeStep_trace env f s rng
    rw [hds] at htr
    unfold decodeLoop at hx
    rw [hds] at hx
    cases out with
    | halt s1 =>
      dsimp only [StepOut.state] at htr
      dsimp only [LoopRes.state] at hx
      rw [h] at htr
      rcases htr with hg | hg
      · rw [hg] at hx; exact Option.noConfusion hx
      · rw [hg] at hx
        simp only [List.nil_append, List.head?_cons, Option.some_inj] at hx
        rw [← hx]
    | err s1 e =>
      dsimp only [StepOut.state] at htr
      dsimp only [LoopRes.state] at hx
      rw [h] at htr
      rcases htr with hg | hg
      · rw [hg] at hx; exact Option.noConfusion hx
      · rw [hg] at hx
        simp only [List.nil_append, List.head?_cons, Option.some_inj] at hx
        rw [← hx]
    | cont s1 =>
      have hct := decodeStep_cont_trace env f s rng s1 rng1 hds
      rw [h, List.nil_append] at hct
      have hfin := decodeLoop_trace_head_stable env f n s1 rng1
        (s.generated, env.encoder_hidden_states) (by rw [hct]; rfl)
      dsimp only at hx
      rw [hfin] at hx
      cases hx
      rfl

theorem decodeLoop_trace_all (env : LoopEnv) (f : Sampler) :
    ∀ (fuel : Nat) (s : LoopState) (rng : List ℚ),
    (∀ e ∈ s.trace, e.2 = env.encoder_hidden_states) →
    ∀ e ∈ ((decodeLoop env f fuel s rng).1.state).trace,
      e.2 = env.encoder_hidden_states := by
  intro fuel
  induction fuel with
  | zero => intro s rng h; exact h
  | succ n ih =>
    intro s rng h
    have hstep : ∀ e ∈ ((decodeStep env f s rng).1.state).trace,
        e.2 = env.encoder_hidden_states := by
      rcases decodeStep_trace env f s rng with hg | hg
      · rw [hg]; exact h
      · rw [hg]
        intro e he
        rcases List.mem_append.1 he with he1 | he1
        · exact h e he1
        · rw [List.mem_singleton.1 he1]
    unfold decodeLoop
    rcases hds : decodeStep env f s rng with ⟨out, rng1⟩
    rw [hds] at hstep
    cases out with
    | halt s1 => exact hstep
    | err s1 e => exact hstep
    | cont s1 => exact ih s1 rng1 hstep

theorem decodeLoop_sampler_irrel (env : LoopEnv) (f g : Sampler)
    (h : env.cfg.short_sentence_threshold = 0) :
    ∀ (fuel : Nat) (s : LoopState) (rng rng2 : List ℚ),
    (decodeLoop env f fuel s rng).1 = (decodeLoop env g fuel s rng2).1 := by
  intro fuel
  induction fuel with
  | zero => intro s rng rng2; rfl
  | succ n ih =>
    intro s rng rng2
    unfold decodeLoop
    rw [decodeStep_sampler_irrel env f g s rng rng2 h]
    rcases hds : decodeStep env g s rng2 with ⟨out, rng3⟩
    dsimp only
    cases out with
    | halt s1 => rfl
    | err s1 e => rfl
    | cont s1 => exact ih s1 rng rng3

theorem finishTranslate_state (ndl : Bool) (eos dst : Int) (vs : Nat)
    (detok : List Int → Except String String) (st : LoopState)
    (encIn : List Int) (encD : List ℚ) :
    (finishTranslate ndl eos dst vs detok st encIn encD).state = st := by
  unfold finishTranslate
  dsimp only
  repeat' split
  all_goals rfl

theorem finishTranslate_encData (ndl : Bool) (eos dst : Int) (vs : Nat)
    (detok : List Int → Except String String) (st : LoopState)
    (encIn : List Int) (encD : List ℚ) :
    (finishTranslate ndl eos dst vs detok st encIn encD).encData = some encD := by
  unfold finishTranslate
  dsimp only
  repeat' split
  all_goals rfl

theorem seedGeneratedIds_length (b : Bool) (e t d : Int) :
    (seedGeneratedIds b e t d).length ≤ 2 := by
  unfold seedGeneratedIds
  split <;> simp

theorem translate_state_spec
    (cfg : GenerationConfig) (dst eos : Int) (vs : Nat) (nel ndl : Bool)
    (slt tlt : Int) (tok : String → Except String (List Int))
    (enc : List Int → List Int → Except String EncoderOut)
    (dec : List Int → List Int → List ℚ → Except String (List Nat × List ℚ))
    (f : Sampler) (rng : List ℚ) (detok : List Int → Except String String)
    (text : String) :
    ((TranslationModel.translate cfg dst eos vs nel ndl slt tlt tok enc dec f
        rng detok text).state = ⟨[], 0, none, []⟩ ∧
      (TranslationModel.translate cfg dst eos vs nel ndl slt tlt tok enc dec f
        rng detok text).encData = none) ∨
    ∃ env : LoopEnv,
      (TranslationModel.translate cfg dst eos vs nel ndl slt tlt tok enc dec f
        rng detok text).state =
        ((decodeLoop env f GenerationConfig.default.max_length
          ⟨seedGeneratedIds ndl eos tlt dst, 0, none, []⟩ rng).1).state ∧
      env.cfg = GenerationConfig.default ∧
      (TranslationModel.translate cfg dst eos vs nel ndl slt tlt tok enc dec f
        rng detok text).encData = some env.encoder_hidden_states := by
  unfold TranslationModel.translate
  dsimp only
  split
  · exact Or.inl ⟨rfl, rfl⟩
  split
  · exact Or.inl ⟨rfl, rfl⟩
  split
  · exact Or.inl ⟨rfl, rfl⟩
  split
  · exact Or.inl ⟨rfl, rfl⟩
  split
  · exact Or.inl ⟨rfl, rfl⟩
  split
  case _ st e heq =>
    exact Or.inr ⟨_, congrArg LoopRes.state heq.symm, rfl, rfl⟩
  case _ st heq =>
    exact Or.inr ⟨_,
      by rw [finishTranslate_state]; exact congrArg LoopRes.state heq.symm,
      rfl, finishTranslate_encData ndl eos dst vs detok st _ _⟩

/-- C1: every `translate` call runs the decode loop with the rebuilt default
config (`no_repeat_ngram_size = 2`); every appended token passes the
`has_repeated_ngram` guard, so the final generated id sequence contains no
repeated 2-gram — including when the loop stopped early because every
candidate would have completed a repeated 2-gram, since the early stop
appends nothing. -/
theorem translate_no_repeated_bigram
    (cfg : GenerationConfig) (dst eos : Int) (vs : Nat) (nel ndl : Bool)
    (slt tlt : Int) (tok : String → Except String (List Int))
    (enc : List Int → List Int → Except String EncoderOut)
    (dec : List Int → List Int → List ℚ → Except String (List Nat × List ℚ))
    (f : Sampler) (rng : List ℚ) (detok : List Int → Except String String)
    (text : String) :
    ¬ hasRepeatedNgramIn
      (TranslationModel.translate cfg dst eos vs nel ndl slt tlt tok enc dec f
        rng detok text).state.generated 2 := by
  rcases translate_state_spec cfg dst eos vs nel ndl slt tlt tok enc dec f rng
      detok text with ⟨h1, -⟩ | ⟨env, hstate, hcfg, -⟩
  · rw [h1]
    exact no_repeat_of_short _ 2 (by simp)
  · rw [hstate]
    have h2 := decodeLoop_no_repeat env f (by rw [hcfg]; decide)
      GenerationConfig.default.max_length
      ⟨seedGeneratedIds ndl eos tlt dst, 0, none, []⟩ rng
      (no_repeat_of_short _ _
        (by rw [hcfg]; exact seedGeneratedIds_length ndl eos tlt dst))
    rw [hcfg] at h2
    exact h2

/-- C10: the decode loop breaks as soon as `generated_ids.len() > 100` after
an append, so the final generated sequence of every `translate` call (seed
tokens included) has at most 101 elements — strictly tighter than the
configured `max_length = 150` iteration bound. -/
theorem translate_generated_le_101
    (cfg : GenerationConfig) (dst eos : Int) (vs : Nat) (nel ndl : Bool)
    (slt tlt : Int) (tok : String → Except String (List Int))
    (enc : List Int → List Int → Except String EncoderOut)
    (dec : List Int → List Int → List ℚ → Except String (List Nat × List ℚ))
    (f : Sampler) (rng : List ℚ) (detok : List Int → Except String String)
    (text : String) :
    (TranslationModel.translate cfg dst eos vs nel ndl slt tlt tok enc dec f
      rng detok text).state.generated.length ≤ 101 := by
  rcases translate_state_spec cfg dst eos vs nel ndl slt tlt tok enc dec f rng
      detok text with ⟨h1, -⟩ | ⟨env, hstate, -, -⟩
  · rw [h1]; simp
  · rw [hstate]
    exact decodeLoop_length env f GenerationConfig.default.max_length
      ⟨seedGeneratedIds ndl eos tlt dst, 0, none, []⟩ rng
      (le_trans (seedGeneratedIds_length ndl eos tlt dst) (by omega))

/-- C9: the decode loop rebuilds `GenerationConfig::default()` internally
(model.rs line 623), shadowing the stored `generation_config`, so the whole
`translate` outcome is independent of the stored config; in particular the
parameters in effect are always the defaults and, with the default
`short_sentence_threshold = 0`, the top-p sampling branch is unreachable. -/
theorem translate_ignores_stored_config
    (cfg1 cfg2 : GenerationConfig) (dst eos : Int) (vs : Nat) (nel ndl : Bool)
    (slt tlt : Int) (tok : String → Except String (List Int))
    (enc : List Int → List Int → Except String EncoderOut)
    (dec : List Int → List Int → List ℚ → Except String (List Nat × List ℚ))
    (f : Sampler) (rng : List ℚ) (detok : List Int → Except String String)
    (text : String) :
    TranslationModel.translate cfg1 dst eos vs nel ndl slt tlt tok enc dec f
      rng detok text =
    TranslationModel.translate cfg2 dst eos vs nel ndl slt tlt tok enc dec f
      rng detok text := rfl

/-- C6: whenever preprocessing leaves nothing, `translate` returns the
empty-input error immediately — the returned value is a constant independent
of the tokenizer, encoder, decoder and sampler, the decoder trace is empty
and the encoder input is never built. -/
theorem translate_empty_input
    (cfg : GenerationConfig) (dst eos : Int) (vs : Nat) (nel ndl : Bool)
    (slt tlt : Int) (tok : String → Except String (List Int))
    (enc : List Int → List Int → Except String EncoderOut)
    (dec : List Int → List Int → List ℚ → Except String (List Nat × List ℚ))
    (f : Sampler) (rng : List ℚ) (detok : List Int → Except String String)
    (text : String) (h : preprocess_text_for_translation text = "") :
    TranslationModel.translate cfg dst eos vs nel ndl slt tlt tok enc dec f
      rng detok text =
      ⟨.error "預處理後的文本為空", ⟨[], 0, none, []⟩, none, none, none⟩ := by
  unfold TranslationModel.translate
  rw [if_pos h]

/-- C3: whenever the decode loop invokes the decoder at all, the first
decoder call receives exactly the seed of the resolved model family:
`[eos_token, target_lang_token]` for a language-prefixed family and
`[decoder_start_token]` for a plain-seed family. -/
theorem translate_first_decoder_input
    (cfg : GenerationConfig) (dst eos : Int) (vs : Nat) (nel ndl : Bool)
    (slt tlt : Int) (tok : String → Except String (List Int))
    (enc : List Int → List Int → Except String EncoderOut)
    (dec : List Int → List Int → List ℚ → Except String (List Nat × List ℚ))
    (f : Sampler) (rng : List ℚ) (detok : List Int → Except String String)
    (text : String) (x : List Int × List ℚ)
    (hx : (TranslationModel.translate cfg dst eos vs nel ndl slt tlt tok enc
      dec f rng detok text).state.trace.head? = some x) :
    x.1 = seedGeneratedIds ndl eos tlt dst := by
  rcases translate_state_spec cfg dst eos vs nel ndl slt tlt tok enc dec f rng
      detok text with ⟨h1, -⟩ | ⟨env, hstate, -, -⟩
  · rw [h1] at hx
    exact Option.noConfusion hx
  · rw [hstate] at hx
    exact decodeLoop_trace_head env f GenerationConfig.default.max_length
      ⟨seedGeneratedIds ndl eos tlt dst, 0, none, []⟩ rng rfl x hx

theorem finishTranslate_encInput (ndl : Bool) (eos dst : Int) (vs : Nat)
    (detok : List Int → Except String String) (st : LoopState)
    (encIn : List Int) (encD : List ℚ) :
    (finishTranslate ndl eos dst vs detok st encIn encD).encInput
      = some encIn := by
  unfold finishTranslate
  dsimp only
  repeat' split
  all_goals rfl

theorem ensure_eos_getLast (l : List Int) (e : Int) :
    (ensure_eos l e).getLast? = some e := by
  unfold ensure_eos
  split
  · assumption
  · exact List.getLast?_concat l

theorem translate_encInput_spec
    (cfg : GenerationConfig) (dst eos : Int) (vs : Nat) (nel ndl : Bool)
    (slt tlt : Int) (tok : String → Except String (List Int))
    (enc : List Int → List Int → Except String EncoderOut)
    (dec : List Int → List Int → List ℚ → Except String (List Nat × List ℚ))
    (f : Sampler) (rng : List ℚ) (detok : List Int → Except String String)
    (text : String) :
    (TranslationModel.translate cfg dst eos vs nel ndl slt tlt tok enc dec f
      rng detok text).encInput = none ∨
    ∃ ids1, (TranslationModel.translate cfg dst eos vs nel ndl slt tlt tok enc
      dec f rng detok text).encInput = some (ensure_eos ids1 eos) := by
  unfold TranslationModel.translate
  dsimp only
  split
  · exact Or.inl rfl
  split
  · exact Or.inl rfl
  split
  · exact Or.inl rfl
  split
  · exact Or.inr ⟨_, rfl⟩
  split
  · exact Or.inr ⟨_, rfl⟩
  split
  · exact Or.inr ⟨_, rfl⟩
  case _ st heq =>
    exact Or.inr ⟨_, finishTranslate_encInput ndl eos dst vs detok st _ _⟩

/-- C7: the id sequence handed to the encoder always ends with
`eos_token_id`; `ensure_eos` leaves a sequence that already ends with EOS
unchanged and otherwise appends exactly one EOS id. -/
theorem translate_encoder_input_eos :
    (∀ (cfg : GenerationConfig) (dst eos : Int) (vs : Nat) (nel ndl : Bool)
      (slt tlt : Int) (tok : String → Except String (List Int))
      (enc : List Int → List Int → Except String EncoderOut)
      (dec : List Int → List Int → List ℚ → Except String (List Nat × List ℚ))
      (f : Sampler) (rng : List ℚ) (detok : List Int → Except String String)
      (text : String) (ids : List Int),
      (TranslationModel.translate cfg dst eos vs nel ndl slt tlt tok enc dec f
        rng detok text).encInput = some ids → ids.getLast? = some eos) ∧
    (∀ (l : List Int) (e : Int), l.getLast? = some e → ensure_eos l e = l) ∧
    (∀ (l : List Int) (e : Int), ¬ l.getLast? = some e →
      ensure_eos l e = l ++ [e]) := by
  refine ⟨?_, ?_, ?_⟩
  · intro cfg dst eos vs nel ndl slt tlt tok enc dec f rng detok text ids hids
    rcases translate_encInput_spec cfg dst eos vs nel ndl slt tlt tok enc dec f
        rng detok text with h | ⟨ids1, h⟩
    · rw [h] at hids
      exact Option.noConfusion hids
    · rw [h] at hids
      cases hids
      exact ensure_eos_getLast ids1 eos
  · intro l e h
    unfold ensure_eos
    rw [if_pos h]
  · intro l e h
    unfold ensure_eos
    rw [if_neg h]

/-- C8: the encoder hidden-state buffer whose length differs from
`1 * input_seq_len * hidden_size` is rejected with the shape-mismatch error
rather than truncated, and on success the validated buffer is passed
unchanged to every decoder invocation for the rest of the call. -/
theorem translate_encoder_shape_validation :
    (∀ (input_seq_len : Nat) (out : EncoderOut), out.data ≠ [] →
      out.data.length ≠ 1 * input_seq_len * out.shape.getD 2 0 →
      validateEncoderOut input_seq_len out
        = .error "Encoder hidden states 數據長度不匹配") ∧
    (∀ (cfg : GenerationConfig) (dst eos : Int) (vs : Nat) (nel ndl : Bool)
      (slt tlt : Int) (tok : String → Except String (List Int))
      (enc : List Int → List Int → Except String EncoderOut)
      (dec : List Int → List Int → List ℚ → Except String (List Nat × List ℚ))
      (f : Sampler) (rng : List ℚ) (detok : List Int → Except String String)
      (text : String) (d : List ℚ) (e : List Int × List ℚ),
      (TranslationModel.translate cfg dst eos vs nel ndl slt tlt tok enc dec f
        rng detok text).encData = some d →
      e ∈ (TranslationModel.translate cfg dst eos vs nel ndl slt tlt tok enc
        dec f rng detok text).state.trace → e.2 = d) := by
  constructor
  · intro L out hne hmm
    unfold validateEncoderOut
    rw [if_neg hne, if_pos hmm]
  · intro cfg dst eos vs nel ndl slt tlt tok enc dec f rng detok text d e hd he
    rcases translate_state_spec cfg dst eos vs nel ndl slt tlt tok enc dec f
        rng detok text with ⟨h1, h2⟩ | ⟨env, hstate, -, h2⟩
    · rw [h2] at hd
      exact Option.noConfusion hd
    · rw [h2] at hd
      cases hd
      rw [hstate] at he
      exact decodeLoop_trace_all env f GenerationConfig.default.max_length
        ⟨seedGeneratedIds ndl eos tlt dst, 0, none, []⟩ rng
        (by intro x hx; exact absurd hx (List.not_mem_nil x)) e he

/-- C4: the decode loop always runs with the rebuilt default config whose
`short_sentence_threshold` is 0, so the nucleus-sampling branch is never
taken and the result of `translate` does not depend on the sampler or on the
random stream: two calls with identical input, collaborators and
configuration return byte-identical outputs (or identical errors). -/
theorem translate_deterministic
    (cfg : GenerationConfig) (dst eos : Int) (vs : Nat) (nel ndl : Bool)
    (slt tlt : Int) (tok : String → Except String (List Int))
    (enc : List Int → List Int → Except String EncoderOut)
    (dec : List Int → List Int → List ℚ → Except String (List Nat × List ℚ))
    (f1 f2 : Sampler) (rng1 rng2 : List ℚ)
    (detok : List Int → Except String String) (text : String) :
    (TranslationModel.translate cfg dst eos vs nel ndl slt tlt tok enc dec f1
      rng1 detok text).result =
    (TranslationModel.translate cfg dst eos vs nel ndl slt tlt tok enc dec f2
      rng2 detok text).result := by
  unfold TranslationModel.translate
  dsimp only
  split
  · rfl
  split
  · rfl
  split
  · rfl
  split
  · rfl
  split
  · rfl
  rw [decodeLoop_sampler_irrel _ f1 f2 rfl GenerationConfig.default.max_length
    ⟨seedGeneratedIds ndl eos tlt dst, 0, none, []⟩ rng1 rng2]

theorem getD_set_self (l : List ℚ) (j : Nat) (a : ℚ) (h : j < l.length) :
    (l.set j a).getD j 0 = a := by
  induction l generalizing j with
  | nil => simp at h
  | cons c cs ih =>
    cases j with
    | zero => rfl
    | succ j2 => simpa using ih j2 (by simpa using h)

theorem getD_set_ne (l : List ℚ) (i j : Nat) (a : ℚ) (h : j ≠ i) :
    (l.set j a).getD i 0 = l.getD i 0 := by
  induction l generalizing i j with
  | nil => simp
  | cons c cs ih =>
    cases j with
    | zero =>
      cases i with
      | zero => exact absurd rfl h
      | succ i2 => rfl
    | succ j2 =>
      cases i with
      | zero => rfl
      | succ i2 => simpa using ih i2 j2 (by omega)

theorem apply_repetition_penalty_getD (l : List ℚ) (gen : List Int) (p : ℚ)
    (i : Nat) (hi : i < l.length) :
    (apply_repetition_penalty l gen p).getD i 0 =
      l.getD i 0 / p ^ (gen.countP fun t => i64_to_usize t == i) := by
  induction gen generalizing l with
  | nil => simp [apply_repetition_penalty]
  | cons t rest ih =>
    simp only [apply_repetition_penalty, List.foldl_cons] at *
    rw [List.countP_cons]
    by_cases hidx : i64_to_usize t < l.length
    · rw [if_pos hidx]
      by_cases heq : i64_to_usize t = i
      · have h1 := ih (l.set (i64_to_usize t) (l.getD (i64_to_usize t) 0 / p))
          (by rw [List.length_set]; exact hi)
        rw [h1, heq, getD_set_self l i _ hi]
        simp only [heq, beq_self_eq_true, if_pos]
        rw [div_div, ← pow_succ']
      · have h1 := ih (l.set (i64_to_usize t) (l.getD (i64_to_usize t) 0 / p))
          (by rw [List.length_set]; exact hi)
        rw [h1, getD_set_ne l i _ _ heq]
        have : (i64_to_usize t == i) = false := by
          simp only [beq_eq_false_iff_ne, ne_eq]
          exact heq
        rw [this]
        simp
    · rw [if_neg hidx]
      have h1 := ih l hi
      rw [h1]
      have : (i64_to_usize t == i) = false := by
        simp only [beq_eq_false_iff_ne, ne_eq]
        omega
      rw [this]
      simp

/-- C2 (amended): for a *positive* original logit and
`repetition_penalty > 1`, the logit adjusted by `apply_repetition_penalty`
strictly decreases as the number of occurrences of the token in
`generated_ids` increases (each occurrence divides once more by the
penalty). -/
theorem repetition_penalty_strict_decrease (l : List ℚ) (p : ℚ) (i : Nat)
    (gen1 gen2 : List Int) (hi : i < l.length) (hp : 1 < p)
    (hpos : 0 < l.getD i 0)
    (hk : gen1.countP (fun t => i64_to_usize t == i)
      < gen2.countP (fun t => i64_to_usize t == i)) :
    (apply_repetition_penalty l gen2 p).getD i 0
      < (apply_repetition_penalty l gen1 p).getD i 0 := by
  rw [apply_repetition_penalty_getD l gen1 p i hi,
    apply_repetition_penalty_getD l gen2 p i hi]
  exact div_lt_div_of_pos_left hpos (pow_pos (lt_trans one_pos hp) _)
    (pow_lt_pow_right₀ hp hk)

/-- C2 (counterexample): with the default penalty `3/2 > 1` and original
logit `-1`, one more occurrence of the token makes the adjusted logit
strictly *larger* (`-1` becomes `-2/3`), refuting the unconditional
"strictly decreases as k increases". -/
theorem repetition_penalty_counterexample :
    (apply_repetition_penalty [(-1 : ℚ)] [] (3 / 2)).getD 0 0 <
    (apply_repetition_penalty [(-1 : ℚ)] [(0 : Int)] (3 / 2)).getD 0 0 := by
  decide

theorem repetition_penalty_strict_decrease_witness :
    (apply_repetition_penalty [(5 : ℚ)] [(0 : Int)] (3 / 2)).getD 0 0
      < (apply_repetition_penalty [(5 : ℚ)] [] (3 / 2)).getD 0 0 :=
  repetition_penalty_strict_decrease [(5 : ℚ)] (3 / 2) 0 [] [(0 : Int)]
    (by decide) (by decide) (by decide) (by decide)

theorem applyGuardsTail_cs (env : LoopEnv) (s : LoopState) (c : Int) :
    (applyGuardsTail env s c).state.consecutive_same = s.consecutive_same := by
  unfold applyGuardsTail
  dsimp only
  repeat' split
  all_goals rfl

/-- C5 (amended): when the candidate that survived the n-gram guard equals
`last_token`, the counter increments and the loop halts — without appending
that candidate — as soon as the incremented counter reaches
`repetition_threshold`; a differing candidate resets the counter to 0.
Tokens appended before such a halt stay in `generated_ids` (and hence in the
output); with the default `no_repeat_ngram_size = 2` a run of identical raw
decoder emissions is broken up by the n-gram guard before the counter can
reach the threshold, as the concrete counterexample run shows. -/
theorem consecutive_repeat_guard (env : LoopEnv) (s : LoopState) (c : Int) :
    (s.last_token = some c →
      env.cfg.repetition_threshold ≤ s.consecutive_same + 1 →
      applyGuards env s c
        = .halt { s with consecutive_same := s.consecutive_same + 1 }) ∧
    (¬ s.last_token = some c →
      ((applyGuards env s c).state).consecutive_same = 0) := by
  constructor
  · intro h1 h2
    unfold applyGuards
    rw [if_pos h1, if_pos h2]
  · intro h1
    unfold applyGuards
    rw [if_neg h1]
    exact applyGuardsTail_cs env { s with consecutive_same := 0 } c

theorem consecutive_repeat_guard_witness :
    applyGuards mockEnv ⟨[3, 1], 2, some 1, []⟩ 1
      = .halt ⟨[3, 1], 3, some 1, []⟩ ∧
    (applyGuards mockEnv ⟨[3, 1], 2, some 2, []⟩ 1).state.consecutive_same
      = 0 :=
  ⟨(consecutive_repeat_guard mockEnv ⟨[3, 1], 2, some 1, []⟩ 1).1 (by decide)
      (by decide),
    (consecutive_repeat_guard mockEnv ⟨[3, 1], 2, some 2, []⟩ 1).2 (by decide)⟩

/-- C5 (counterexample): in `runRepeatEmit` the decoder's raw argmax is the
same non-EOS, non-seed token 1 at every step, yet the loop does not halt via
the repeat-run guard: it ends with `consecutive_same = 1` (below the
threshold 3, because the 2-gram guard replaces the third consecutive
emission), and the previously appended repeats `1, 1` remain in the final
output ids and in the decoded output. -/
theorem repeat_run_counterexample :
    runRepeatEmit.state.generated = [3, 1, 1, 2, 1] ∧
    runRepeatEmit.state.consecutive_same = 1 ∧
    GenerationConfig.default.repetition_threshold = 3 ∧
    runRepeatEmit.outIds = some [1, 1, 2, 1] ∧
    runRepeatEmit.result = Except.ok "1,1,2,1" := by
  decide

theorem translate_no_repeated_bigram_witness :
    ¬ hasRepeatedNgramIn runRepeatEmit.state.generated 2 :=
  translate_no_repeated_bigram GenerationConfig.default 3 0 4 false false 0 0
    mockTok mockEnc mockDec mockSample [] mockDetok "hi"

theorem translate_first_decoder_input_witness :
    (∃ x, runSeedLang.state.trace.head? = some x ∧ x.1 = [2, 250025]) ∧
    (∃ x, runSeedPlain.state.trace.head? = some x ∧ x.1 = [65000]) := by
  constructor
  · have hx : runSeedLang.state.trace.head?
        = some ([2, 250025], List.replicate 6 (1 : ℚ)) := by decide
    exact ⟨_, hx, translate_first_decoder_input GenerationConfig.default 65000 2
      3 false true 0 250025 mockTok mockEnc mockDecB mockSample [] mockDetok
      "hi" _ hx⟩
  · have hx : runSeedPlain.state.trace.head?
        = some ([65000], List.replicate 6 (1 : ℚ)) := by decide
    exact ⟨_, hx, translate_first_decoder_input GenerationConfig.default 65000 2
      3 false false 0 250025 mockTok mockEnc mockDecB mockSample [] mockDetok
      "hi" _ hx⟩

theorem translate_empty_input_witness :
    preprocess_text_for_translation "   " = "" ∧
    TranslationModel.translate GenerationConfig.default 3 0 4 false false 0 0
      mockTok mockEnc mockDec mockSample [] mockDetok "   "
      = ⟨.error "預處理後的文本為空", ⟨[], 0, none, []⟩, none, none, none⟩ :=
  ⟨by decide, translate_empty_input GenerationConfig.default 3 0 4 false false
    0 0 mockTok mockEnc mockDec mockSample [] mockDetok "   " (by decide)⟩

theorem translate_encoder_input_eos_witness :
    ([5, 0] : List Int).getLast? = some 0 ∧
    ensure_eos [7, 2] 2 = [7, 2] ∧
    ensure_eos [7] 2 = [7, 2] :=
  ⟨translate_encoder_input_eos.1 GenerationConfig.default 3 0 4 false false 0 0
      mockTok mockEnc mockDec mockSample [] mockDetok "hi" [5, 0] (by decide),
    translate_encoder_input_eos.2.1 [7, 2] 2 (by decide),
    translate_encoder_input_eos.2.2 [7] 2 (by decide)⟩

theorem translate_encoder_shape_validation_witness :
    validateEncoderOut 1 ⟨[1, 1, 2], [1, 1, 1]⟩
      = .error "Encoder hidden states 數據長度不匹配" ∧
    (([3], List.replicate 6 (1 : ℚ)) : List Int × List ℚ).2
      = List.replicate 6 (1 : ℚ) :=
  ⟨translate_encoder_shape_validation.1 1 ⟨[1, 1, 2], [1, 1, 1]⟩ (by decide)
      (by decide),
    translate_encoder_shape_validation.2 GenerationConfig.default 3 0 4 false
      false 0 0 mockTok mockEnc mockDec mockSample [] mockDetok "hi"
      (List.replicate 6 (1 : ℚ)) ([3], List.replicate 6 (1 : ℚ)) (by decide)
      (by decide)⟩
